import Mathlib

/-!
Shallow embedding of the conversion-route registry and the conversion
driver of the heic-to-jpeg-converter repository
(`src/registry.py`, `src/logger.py`,
`src/tui/screens/progress_screen.py`), together with theorems settling
the spec claims about them.

Python dictionaries are modelled as association lists with
insertion-order-preserving overwrite (`dictInsert`); `str.lower()` is
modelled by the character-wise `strLower` (the formats in play are
ASCII, where Python's `lower` is exactly a character-wise map);
`sorted()` on strings is modelled by insertion sort under the
code-point-lexicographic order `strLe` (the unique stable sort);
raising `ValueError` is modelled by `Except`.
-/

namespace HeicConv

/-- Equality of `Except` values is decidable componentwise; needed to
state concrete facts about `get_route` results. -/
instance {ε α : Type} [DecidableEq ε] [DecidableEq α] :
    DecidableEq (Except ε α)
  | .error x, .error y => decidable_of_iff (x = y) (by simp)
  | .error _, .ok _ => .isFalse (by simp)
  | .ok _, .error _ => .isFalse (by simp)
  | .ok x, .ok y => decidable_of_iff (x = y) (by simp)

/-- Python's `str.lower()` on ASCII strings: lowercase each character. -/
def strLower (s : String) : String := ⟨s.data.map Char.toLower⟩

/-- Code-point-lexicographic comparison of character lists, the order
Python's `sorted()` uses on strings. -/
def listLe : List Char → List Char → Bool
  | [], _ => true
  | _ :: _, [] => false
  | a :: as, b :: bs =>
    if a.toNat < b.toNat then true
    else if b.toNat < a.toNat then false
    else listLe as bs

/-- `a ≤ b` on strings by code points, as Python compares strings. -/
def strLe (a b : String) : Bool := listLe a.data b.data

/-- `MediaType` enum from `src/registry.py`: broad media domains used to
block cross-type conversions. -/
inductive MediaType where
  | image
  | video
  | audio
  | document
deriving DecidableEq, Repr

/-- `EXTENSION_MEDIA_TYPE` from `src/registry.py`: maps every known
extension to its media domain (dict modelled as an association list,
keys are unique in the source). -/
def EXTENSION_MEDIA_TYPE : List (String × MediaType) :=
  [("heic", .image), ("jpg", .image), ("jpeg", .image), ("png", .image),
   ("webp", .image), ("gif", .image), ("bmp", .image), ("tiff", .image),
   ("mp4", .video), ("avi", .video), ("mkv", .video), ("mov", .video),
   ("wmv", .video), ("flv", .video),
   ("mp3", .audio), ("wav", .audio), ("flac", .audio), ("aac", .audio),
   ("ogg", .audio), ("m4a", .audio),
   ("pdf", .document), ("docx", .document), ("txt", .document)]

/-- `EXTENSION_MEDIA_TYPE.get(ext)` — Python `dict.get`, returning
`None` for unknown keys. -/
def domainOf (ext : String) : Option MediaType :=
  (EXTENSION_MEDIA_TYPE.find? (fun p => p.1 == ext)).map (·.2)

/-- The four converter classes of `src/converters/` (`ImageConverter`,
`VideoConverter`, `AudioConverter`, `DocumentConverter`), needed only as
identities for the `converter_class` field of a route. -/
inductive ConverterClass where
  | imageConverter
  | videoConverter
  | audioConverter
  | documentConverter
deriving DecidableEq, Repr

/-- `ConversionRoute` frozen dataclass from `src/registry.py`. -/
structure ConversionRoute where
  source_format : String
  target_format : String
  converter_class : ConverterClass
  lossy : Bool := false
deriving DecidableEq, Repr

/-- A key of the `_routes` dict: the lowercased (source, target) pair. -/
abbrev RouteKey := String × String

/-- Python dict assignment `d[k] = v`: overwrite in place if the key is
present, else append (dicts preserve insertion order). -/
def dictInsert (d : List (RouteKey × ConversionRoute)) (k : RouteKey)
    (v : ConversionRoute) : List (RouteKey × ConversionRoute) :=
  if d.any (fun p => p.1 == k) then
    d.map (fun p => if p.1 == k then (k, v) else p)
  else
    d ++ [(k, v)]

/-- Python dict lookup `d[k]` / membership test, as an `Option`. -/
def dictFind (d : List (RouteKey × ConversionRoute)) (k : RouteKey) :
    Option ConversionRoute :=
  (d.find? (fun p => p.1 == k)).map (·.2)

/-- `ConversionRegistry` from `src/registry.py`: holds the `_routes`
dict. -/
structure ConversionRegistry where
  routes : List (RouteKey × ConversionRoute)
deriving DecidableEq, Repr

/-- The two `ValueError`s raised by `ConversionRegistry.get_route`,
distinguished as the spec's error kinds: the cross-domain error carries
both media domains. -/
inductive RouteError where
  | crossDomainRejected (src tgt : MediaType)
  | routeNotFound
deriving DecidableEq, Repr

/-- `ConversionRegistry.register`: inserts/overwrites the route keyed by
its lowercased (source, target) pair; no other validation. -/
def ConversionRegistry.register (r : ConversionRegistry)
    (route : ConversionRoute) : ConversionRegistry :=
  { routes :=
      dictInsert r.routes
        (strLower route.source_format, strLower route.target_format) route }

/-- `ConversionRegistry.is_valid`: case-insensitive existence check of
the key in `_routes`. -/
def ConversionRegistry.is_valid (r : ConversionRegistry)
    (source_format target_format : String) : Bool :=
  r.routes.any
    (fun p => p.1 == (strLower source_format, strLower target_format))

/-- `ConversionRegistry.get_route`: return the stored route for the
lowercased key; if absent, raise the cross-domain `ValueError` when both
formats have known, differing domains, else the generic not-found
`ValueError`. -/
def ConversionRegistry.get_route (r : ConversionRegistry)
    (source_format target_format : String) :
    Except RouteError ConversionRoute :=
  let key : RouteKey := (strLower source_format, strLower target_format)
  match dictFind r.routes key with
  | some route => .ok route
  | none =>
    match domainOf (strLower source_format),
        domainOf (strLower target_format) with
    | some src_type, some tgt_type =>
      if src_type ≠ tgt_type then
        .error (.crossDomainRejected src_type tgt_type)
      else
        .error .routeNotFound
    | _, _ => .error .routeNotFound

/-- `ConversionRegistry.get_valid_targets`: the targets of all keys
whose source component equals the lowercased argument, sorted
ascending. -/
def ConversionRegistry.get_valid_targets (r : ConversionRegistry)
    (source_format : String) : List String :=
  (((r.routes.map (·.1)).filter
      (fun k => k.1 == strLower source_format)).map (·.2)).insertionSort
    (fun a b => strLe a b = true)

/-- `ConversionRegistry.get_media_type`: passthrough to the extension
catalog, lowercasing first. -/
def ConversionRegistry.get_media_type (_ : ConversionRegistry)
    (extension : String) : Option MediaType :=
  domainOf (strLower extension)

/-- The `image_routes` table of `build_default_registry`. -/
def image_routes : List (String × String × Bool) :=
  [("heic", "jpg", true), ("heic", "png", false), ("jpg", "png", false),
   ("jpg", "webp", true), ("png", "jpg", true), ("png", "webp", false),
   ("png", "gif", false), ("webp", "jpg", true), ("webp", "png", false),
   ("gif", "png", false), ("bmp", "jpg", true), ("bmp", "png", false),
   ("tiff", "jpg", true), ("tiff", "png", false)]

/-- The `video_routes` table of `build_default_registry`. -/
def video_routes : List (String × String × Bool) :=
  [("mp4", "avi", false), ("mp4", "mkv", false), ("mp4", "mov", false),
   ("avi", "mp4", false), ("avi", "mkv", false), ("mkv", "mp4", false),
   ("mkv", "avi", false), ("mov", "mp4", false), ("mov", "avi", false)]

/-- The `audio_routes` table of `build_default_registry`. -/
def audio_routes : List (String × String × Bool) :=
  [("mp3", "wav", false), ("mp3", "flac", false), ("wav", "mp3", true),
   ("wav", "flac", false), ("flac", "mp3", true), ("flac", "wav", false),
   ("aac", "mp3", true), ("aac", "wav", false), ("m4a", "mp3", true),
   ("m4a", "wav", false)]

/-- The `document_routes` table of `build_default_registry`. -/
def document_routes : List (String × String × Bool) :=
  [("pdf", "txt", false), ("docx", "txt", false)]

/-- `build_default_registry` from `src/registry.py`: registers each
table's triples with that domain's converter class, in order. -/
def build_default_registry : ConversionRegistry :=
  let r0 : ConversionRegistry := ⟨[]⟩
  let r1 := image_routes.foldl
    (fun r p => r.register ⟨p.1, p.2.1, .imageConverter, p.2.2⟩) r0
  let r2 := video_routes.foldl
    (fun r p => r.register ⟨p.1, p.2.1, .videoConverter, p.2.2⟩) r1
  let r3 := audio_routes.foldl
    (fun r p => r.register ⟨p.1, p.2.1, .audioConverter, p.2.2⟩) r2
  document_routes.foldl
    (fun r p => r.register ⟨p.1, p.2.1, .documentConverter, p.2.2⟩) r3

/-- The module-level singleton `registry = build_default_registry()`. -/
def registry : ConversionRegistry := build_default_registry

example : registry.is_valid "heic" "jpg" = true := by decide

example : registry.get_valid_targets "heic" = ["jpg", "png"] := by decide

example : registry.get_route "heic" "mp3" =
    .error (.crossDomainRejected .image .audio) := by decide

example : registry.get_route "heic" "jpg" =
    .ok ⟨"heic", "jpg", .imageConverter, true⟩ := by decide

/-!
Conversion driver (`ProgressScreen._run_conversions` plus the decision
handlers `on_keep`/`on_delete` of
`src/tui/screens/progress_screen.py`, and the session-log calls they
make into `ConversionLogger` of `src/logger.py`).

The driver is sequential: the worker blocks after each successful
conversion until the user answers the keep/delete prompt, so a run is
determined by the file list together with one decision per converted
file. External effects are oracles: the codec call
`converter.convert(...)` either returns an output name or raises, and
`Path.unlink()` either succeeds or raises `OSError`.
-/

/-- Observable events of one run: the prompt shown to the user and the
session-log records written through `ConversionLogger`
(`log_conversion` = Success with kept flag, `log_delete`, `log_error`,
`log_summary`) plus the lossy warning line. -/
inductive Event where
  | lossyWarn (file : String)
  | prompt (file : String)
  | logSuccess (file : String) (original_kept : Bool)
  | logDeleted (file : String)
  | logError (file : String)
  | logSummary (success skipped errors : Nat)
deriving DecidableEq, Repr

/-- The `_stats` dict `{"success": 0, "skipped": 0, "errors": 0}`. -/
structure Stats where
  success : Nat
  skipped : Nat
  errors : Nat
deriving DecidableEq, Repr

/-- The user's answer to the keep/delete prompt; `delete` carries the
external outcome of `Path.unlink()` (`true` = removal succeeded). -/
inductive Decision where
  | keep
  | delete (unlinkOk : Bool)
deriving DecidableEq, Repr

/-- `ProgressScreen.on_keep`: one `log_conversion` entry with
`original_kept=True`. -/
def on_keep (file : String) : List Event :=
  [.logSuccess file true]

/-- `ProgressScreen.on_delete`: attempt `unlink`; on success
`log_delete`, on `OSError` `log_error`; then one `log_conversion` entry
with `original_kept=False` either way. -/
def on_delete (file : String) (unlinkOk : Bool) : List Event :=
  (if unlinkOk then [Event.logDeleted file] else [Event.logError file]) ++
    [Event.logSuccess file false]

/-- Whether the original source file still exists once the decision is
handled: it is retained unless the user chose delete and the unlink
succeeded. This is a fact about the filesystem, not a program value. -/
def originalRetained (d : Decision) : Bool :=
  match d with
  | .keep => true
  | .delete unlinkOk => !unlinkOk

/-- One file of a batch: its display name, its extension
(`file.suffix.lstrip(".").lower()`), and the external codec outcome of
`converter.convert` for it (output file name, or a raised error's
message). -/
structure DriverFile where
  name : String
  ext : String
  convert : Except String String
deriving DecidableEq, Repr

/-- One iteration of the `for file in self._files` loop body: resolve
the route (any raise is caught: `errors += 1` and `log_error`, no
prompt); on success warn if lossy, call the converter (again catching a
raise), then `success += 1`, prompt, block, and run the decision
handler. -/
def processOne (target : String) (f : DriverFile) (d : Decision)
    (stats : Stats) : Stats × List Event :=
  match registry.get_route (strLower f.ext) target with
  | .error _ => ({ stats with errors := stats.errors + 1 }, [.logError f.name])
  | .ok route =>
    let warn := if route.lossy then [Event.lossyWarn f.name] else []
    match f.convert with
    | .error _ =>
      ({ stats with errors := stats.errors + 1 }, warn ++ [.logError f.name])
    | .ok _ =>
      let decided :=
        match d with
        | .keep => on_keep f.name
        | .delete unlinkOk => on_delete f.name unlinkOk
      ({ stats with success := stats.success + 1 },
        warn ++ [.prompt f.name] ++ decided)

/-- `ProgressScreen._run_conversions`: fold the loop body over the
batch starting from zero stats, then append the `log_summary` record
of the final stats. -/
def run_conversions (target : String) (files : List (DriverFile × Decision)) :
    Stats × List Event :=
  let final := files.foldl
    (fun acc fd =>
      let step := processOne target fd.1 fd.2 acc.1
      (step.1, acc.2 ++ step.2))
    (⟨0, 0, 0⟩, [])
  (final.1,
    final.2 ++ [.logSummary final.1.success final.1.skipped final.1.errors])

example :
    (run_conversions "jpg"
      [(⟨"a.heic", "heic", .ok "a.jpg"⟩, .keep),
       (⟨"b.gif", "gif", .ok "b.jpg"⟩, .keep),
       (⟨"c.png", "png", .ok "c.jpg"⟩, .keep)]).2 =
    [.lossyWarn "a.heic", .prompt "a.heic", .logSuccess "a.heic" true,
     .logError "b.gif",
     .lossyWarn "c.png", .prompt "c.png", .logSuccess "c.png" true,
     .logSummary 2 0 1] := by decide

/-! Helper lemmas. -/

/-- Unfolding of the lexicographic comparison on a cons pair. -/
theorem listLe_cons_iff (a b : Char) (as bs : List Char) :
    listLe (a :: as) (b :: bs) = true ↔
      a.toNat < b.toNat ∨ (a.toNat = b.toNat ∧ listLe as bs = true) := by
  simp only [listLe]
  by_cases h1 : a.toNat < b.toNat
  · simp [h1]
  · by_cases h2 : b.toNat < a.toNat
    · simp only [if_neg h1, if_pos h2]
      constructor
      · intro h; cases h
      · rintro (h | ⟨h, _⟩) <;> omega
    · have h3 : a.toNat = b.toNat := by omega
      simp [h1, h2, h3]

/-- The code-point order on character lists is transitive. -/
theorem listLe_trans : ∀ xs ys zs : List Char,
    listLe xs ys = true → listLe ys zs = true → listLe xs zs = true
  | [], _, _, _, _ => rfl
  | _ :: _, [], _, h, _ => by simp [listLe] at h
  | _ :: _, _ :: _, [], _, h => by simp [listLe] at h
  | a :: as, b :: bs, c :: cs, h1, h2 => by
    rw [listLe_cons_iff] at h1 h2 ⊢
    rcases h1 with h1 | ⟨h1, h1'⟩ <;> rcases h2 with h2 | ⟨h2, h2'⟩
    · exact Or.inl (by omega)
    · exact Or.inl (by omega)
    · exact Or.inl (by omega)
    · exact Or.inr ⟨by omega, listLe_trans as bs cs h1' h2'⟩

/-- The code-point order on character lists is total. -/
theorem listLe_total : ∀ xs ys : List Char,
    listLe xs ys = true ∨ listLe ys xs = true
  | [], _ => Or.inl rfl
  | _ :: _, [] => Or.inr rfl
  | a :: as, b :: bs => by
    rw [listLe_cons_iff, listLe_cons_iff]
    rcases Nat.lt_trichotomy a.toNat b.toNat with h | h | h
    · exact Or.inl (Or.inl h)
    · rcases listLe_total as bs with h' | h'
      · exact Or.inl (Or.inr ⟨h, h'⟩)
      · exact Or.inr (Or.inr ⟨h.symm, h'⟩)
    · exact Or.inr (Or.inl h)

instance : IsTrans String (fun a b => strLe a b = true) :=
  ⟨fun a b c => listLe_trans a.data b.data c.data⟩

instance : IsTotal String (fun a b => strLe a b = true) :=
  ⟨fun a b => listLe_total a.data b.data⟩

/-- `is_valid` holds exactly when the lowercased pair is a key of the
routes dict. -/
theorem is_valid_iff_mem (r : ConversionRegistry) (s t : String) :
    r.is_valid s t = true ↔
      (strLower s, strLower t) ∈ r.routes.map (·.1) := by
  simp only [ConversionRegistry.is_valid, List.any_eq_true, List.mem_map,
    beq_iff_eq]

/-- If `is_valid` is false, the dict lookup in `get_route` misses. -/
theorem dictFind_eq_none_of_not_valid (r : ConversionRegistry)
    (s t : String) (h : r.is_valid s t = false) :
    dictFind r.routes (strLower s, strLower t) = none := by
  simp only [ConversionRegistry.is_valid, List.any_eq_false] at h
  have hf : List.find? (fun p => p.1 == (strLower s, strLower t)) r.routes
      = none := List.find?_eq_none.mpr h
  simp [dictFind, hf]

/-- Membership in `get_valid_targets`: exactly the second components of
keys whose first component is the lowercased source. -/
theorem mem_get_valid_targets (r : ConversionRegistry) (s u : String) :
    u ∈ r.get_valid_targets s ↔
      (strLower s, u) ∈ r.routes.map (·.1) := by
  unfold ConversionRegistry.get_valid_targets
  rw [List.mem_insertionSort]
  simp only [List.mem_map, List.mem_filter, beq_iff_eq]
  constructor
  · rintro ⟨k, ⟨⟨e, he, hek⟩, h1⟩, h2⟩
    exact ⟨e, he, by rw [hek, ← h1, ← h2]⟩
  · rintro ⟨e, he, hek⟩
    exact ⟨(strLower s, u), ⟨⟨e, he, hek⟩, rfl⟩, rfl⟩

/-- The default route table of §6 of the spec, written from the spec's
words (14 image, 9 video, 10 audio, 2 document triples of
(source, target, lossy)), for comparison with the registry the source
builds. -/
def specRouteTable : List (String × String × Bool) :=
  [("heic", "jpg", true), ("heic", "png", false), ("jpg", "png", false),
   ("jpg", "webp", true), ("png", "jpg", true), ("png", "webp", false),
   ("png", "gif", false), ("webp", "jpg", true), ("webp", "png", false),
   ("gif", "png", false), ("bmp", "jpg", true), ("bmp", "png", false),
   ("tiff", "jpg", true), ("tiff", "png", false),
   ("mp4", "avi", false), ("mp4", "mkv", false), ("mp4", "mov", false),
   ("avi", "mp4", false), ("avi", "mkv", false), ("mkv", "mp4", false),
   ("mkv", "avi", false), ("mov", "mp4", false), ("mov", "avi", false),
   ("mp3", "wav", false), ("mp3", "flac", false), ("wav", "mp3", true),
   ("wav", "flac", false), ("flac", "mp3", true), ("flac", "wav", false),
   ("aac", "mp3", true), ("aac", "wav", false), ("m4a", "mp3", true),
   ("m4a", "wav", false),
   ("pdf", "txt", false), ("docx", "txt", false)]

/-- C2: every triple of the §6 default route table is registered in the
default registry with `is_valid` true and a resolved route whose lossy
flag equals the table's marking; and the registered keys (with their
lossy flags) are exactly the table — no pair outside it is
registered. -/
theorem default_registry_matches_table :
    (specRouteTable.all (fun p =>
      registry.is_valid p.1 p.2.1 &&
        match registry.get_route p.1 p.2.1 with
        | .ok route => route.lossy == p.2.2
        | .error _ => false)) = true ∧
    registry.routes.map (fun e => (e.1.1, e.1.2, e.2.lossy)) =
      specRouteTable := by
  constructor
  · decide
  · decide

/-- C8: for every route registered in the default registry, whenever
both of its formats are present in the extension→domain catalog the two
domains agree — no cross-domain route is registered at startup. -/
theorem no_cross_domain_route_registered :
    (registry.routes.all (fun e =>
      match domainOf (strLower e.2.source_format),
          domainOf (strLower e.2.target_format) with
      | some d1, some d2 => d1 == d2
      | _, _ => true)) = true := by decide

/-- A batch of three image files converting to jpg: files #1 and #3
have registered routes and convert successfully (with keep decisions),
file #2 (`gif` → `jpg`) resolves to no registered route. -/
def batchOfThree : List (DriverFile × Decision) :=
  [(⟨"a.heic", "heic", .ok "a.jpg"⟩, .keep),
   (⟨"b.gif", "gif", .ok "b.jpg"⟩, .keep),
   (⟨"c.png", "png", .ok "c.jpg"⟩, .keep)]

/-- C3: running the driver on that batch yields exactly 2 Success
entries and 1 Error entry, a final Summary with success=2 and errors=1,
no keep/delete prompt for file #2, and file #3 is still processed
(its Success entry, after file #2's error, is present). -/
theorem batch_of_three_with_failing_second :
    ((run_conversions "jpg" batchOfThree).2.countP
      (fun e => match e with | .logSuccess _ _ => true | _ => false)) = 2 ∧
    ((run_conversions "jpg" batchOfThree).2.countP
      (fun e => match e with | .logError _ => true | _ => false)) = 1 ∧
    (run_conversions "jpg" batchOfThree).2.getLast? =
      some (.logSummary 2 0 1) ∧
    (run_conversions "jpg" batchOfThree).1 = ⟨2, 0, 1⟩ ∧
    Event.prompt "b.gif" ∉ (run_conversions "jpg" batchOfThree).2 ∧
    Event.logSuccess "c.png" true ∈ (run_conversions "jpg" batchOfThree).2 := by
  refine ⟨by decide, by decide, by decide, by decide, by decide, by decide⟩

/-- C4 at the failing input: after a successful conversion the user
chooses delete and `unlink` raises `OSError`. The handler logs the
Error, still writes exactly one Success entry (progression is not
blocked) — but that entry carries `original_kept = false` even though
the original file is in fact still retained, contradicting the claimed
meaning of the kept flag. -/
theorem delete_failure_logs_kept_false :
    on_delete "photo.heic" false =
      [Event.logError "photo.heic", Event.logSuccess "photo.heic" false] ∧
    originalRetained (Decision.delete false) = true := by
  exact ⟨rfl, rfl⟩

/-- C1 counterexample: `resolve("heic","mp3")` does not fail with the
generic not-found error the claim asserts — heic is Image and mp3 is
Audio, two known differing domains, so it fails with the cross-domain
error instead. -/
theorem resolve_heic_mp3_is_cross_domain :
    registry.get_route "heic" "mp3" =
      .error (.crossDomainRejected .image .audio) ∧
    registry.get_route "heic" "mp3" ≠ .error .routeNotFound := by
  refine ⟨by decide, by decide⟩

/-- C1 (amended): for every unregistered pair, if both formats map to
known `MediaDomain`s and those domains differ then `get_route` fails
with the cross-domain error carrying both domains, and every other
unregistered pair fails with the not-found error; in particular
`resolve("mp4","pdf")` fails cross-domain (video vs document), and so
does `resolve("heic","mp3")` (image vs audio). -/
theorem unregistered_pair_error_kinds (s t : String)
    (h : registry.is_valid s t = false) :
    (∀ d1 d2, domainOf (strLower s) = some d1 →
        domainOf (strLower t) = some d2 → d1 ≠ d2 →
        registry.get_route s t = .error (.crossDomainRejected d1 d2)) ∧
    (domainOf (strLower s) = none ∨ domainOf (strLower t) = none ∨
        domainOf (strLower s) = domainOf (strLower t) →
        registry.get_route s t = .error .routeNotFound) ∧
    registry.get_route "mp4" "pdf" =
      .error (.crossDomainRejected .video .document) ∧
    registry.get_route "heic" "mp3" =
      .error (.crossDomainRejected .image .audio) := by
  have hf := dictFind_eq_none_of_not_valid registry s t h
  refine ⟨?_, ?_, by decide, by decide⟩
  · intro d1 d2 h1 h2 hne
    simp [ConversionRegistry.get_route, hf, h1, h2, hne]
  · intro hcase
    rcases hs : domainOf (strLower s) with _ | d1
    · rcases ht : domainOf (strLower t) with _ | d2 <;>
        simp [ConversionRegistry.get_route, hf, hs, ht]
    · rcases ht : domainOf (strLower t) with _ | d2
      · simp [ConversionRegistry.get_route, hf, hs, ht]
      · have hd : d1 = d2 := by
          rcases hcase with h' | h' | h'
          · rw [hs] at h'; cases h'
          · rw [ht] at h'; cases h'
          · rw [hs, ht] at h'; exact Option.some.inj h'
        simp [ConversionRegistry.get_route, hf, hs, ht, hd]

/-- Witness for the amended C1 at mp4→pdf, an unregistered pair of
known differing domains. -/
theorem unregistered_pair_error_kinds_witness :
    registry.is_valid "mp4" "pdf" = false ∧
    registry.get_route "mp4" "pdf" =
      .error (.crossDomainRejected .video .document) :=
  ⟨by decide,
   (unregistered_pair_error_kinds "mp4" "pdf" (by decide)).1
     .video .document (by decide) (by decide) (by decide)⟩

/-- C5: `get_valid_targets` is sorted ascending in the code-point
order, its members are exactly the targets registered for the
lowercased source (so an unknown source yields the empty sequence, not
an error); in particular heic ↦ ["jpg", "png"] and xyz ↦ []. -/
theorem valid_targets_sorted_complete (r : ConversionRegistry)
    (s u : String) :
    List.Sorted (fun a b => strLe a b = true) (r.get_valid_targets s) ∧
    (u ∈ r.get_valid_targets s ↔
      (strLower s, u) ∈ r.routes.map (·.1)) ∧
    registry.get_valid_targets "heic" = ["jpg", "png"] ∧
    registry.get_valid_targets "xyz" = [] := by
  refine ⟨?_, mem_get_valid_targets r s u, by decide, by decide⟩
  unfold ConversionRegistry.get_valid_targets
  exact List.sorted_insertionSort _ _

/-- C6: lookups only depend on the lowercased arguments, so any
case-variant of a pair behaves like its lowercase form, for both
`is_valid` and `get_route`; in particular
`is_valid("HEIC","JPG") = is_valid("heic","jpg")`. -/
theorem lookups_case_insensitive (r : ConversionRegistry)
    (s t s' t' : String) (hs : strLower s = strLower s')
    (ht : strLower t = strLower t') :
    r.is_valid s t = r.is_valid s' t' ∧
    r.get_route s t = r.get_route s' t' ∧
    registry.is_valid "HEIC" "JPG" = registry.is_valid "heic" "jpg" := by
  refine ⟨?_, ?_, by decide⟩
  · simp [ConversionRegistry.is_valid, hs, ht]
  · simp [ConversionRegistry.get_route, hs, ht]

/-- Witness for C6 at the concrete pair HEIC/JPG against heic/jpg. -/
theorem lookups_case_insensitive_witness :
    registry.is_valid "HEIC" "JPG" = registry.is_valid "heic" "jpg" ∧
    registry.get_route "HEIC" "JPG" = registry.get_route "heic" "jpg" :=
  ⟨(lookups_case_insensitive registry "HEIC" "JPG" "heic" "jpg"
      (by decide) (by decide)).1,
   (lookups_case_insensitive registry "HEIC" "JPG" "heic" "jpg"
      (by decide) (by decide)).2.1⟩

/-- Explicit state-passing form of the `get_route` method: its body
only reads `self._routes` and the module-level catalog and assigns
nothing, so the registry state it hands back is the one it was
given. -/
def get_route_st (r : ConversionRegistry) (s t : String) :
    (Except RouteError ConversionRoute) × ConversionRegistry :=
  (r.get_route s t, r)

/-- C7: resolving the same pair twice in sequence yields routes with
identical content — equal `source_format`, `target_format`,
`converter_class` and `lossy` — and leaves the registry exactly as it
was: lookup mutates nothing. -/
theorem resolve_twice_identical (r : ConversionRegistry) (s t : String)
    (route1 route2 : ConversionRoute)
    (h1 : (get_route_st r s t).1 = .ok route1)
    (h2 : (get_route_st (get_route_st r s t).2 s t).1 = .ok route2) :
    route1.source_format = route2.source_format ∧
    route1.target_format = route2.target_format ∧
    route1.converter_class = route2.converter_class ∧
    route1.lossy = route2.lossy ∧
    (get_route_st (get_route_st r s t).2 s t).2 = r := by
  have heq : route1 = route2 := Except.ok.inj (h1.symm.trans h2)
  subst heq
  exact ⟨rfl, rfl, rfl, rfl, rfl⟩

/-- Witness for C7 at the registered pair heic→jpg of the default
registry. -/
theorem resolve_twice_identical_witness :
    (get_route_st registry "heic" "jpg").1 =
      Except.ok ⟨"heic", "jpg", ConverterClass.imageConverter, true⟩ ∧
    (get_route_st (get_route_st registry "heic" "jpg").2 "heic" "jpg").2 =
      registry :=
  ⟨by decide,
   (resolve_twice_identical registry "heic" "jpg"
      ⟨"heic", "jpg", .imageConverter, true⟩
      ⟨"heic", "jpg", .imageConverter, true⟩
      (by decide) (by decide)).2.2.2.2⟩

/-- Inserting a key into the routes dict makes it a key of the result,
whether it overwrites or appends. -/
theorem dictInsert_mem_key (d : List (RouteKey × ConversionRoute))
    (k : RouteKey) (v : ConversionRoute) :
    k ∈ (dictInsert d k v).map (·.1) := by
  unfold dictInsert
  by_cases hmem : d.any (fun p => p.1 == k)
  · rw [if_pos hmem]
    obtain ⟨p, hp, hpk⟩ := List.any_eq_true.mp hmem
    rw [List.mem_map]
    refine ⟨(k, v), ?_, rfl⟩
    rw [List.mem_map]
    exact ⟨p, hp, by rw [if_pos hpk]⟩
  · rw [if_neg hmem, List.map_append, List.mem_append]
    exact Or.inr (by simp)

/-- C9: `register` performs no domain validation — any route, a
cross-domain one included, becomes a registered (valid) pair — and for
every registered pair `get_route` returns the stored route without
error, so the cross-domain rejection is reachable only for unregistered
pairs. -/
theorem registered_pair_returns_stored_route (r : ConversionRegistry)
    (route : ConversionRoute) (s t : String)
    (h : r.is_valid s t = true) :
    (r.register route).is_valid route.source_format route.target_format
      = true ∧
    ∃ rt, dictFind r.routes (strLower s, strLower t) = some rt ∧
      r.get_route s t = .ok rt := by
  constructor
  · rw [is_valid_iff_mem]
    exact dictInsert_mem_key r.routes
      (strLower route.source_format, strLower route.target_format) route
  · have hsome :
        (r.routes.find? (fun p => p.1 == (strLower s, strLower t))).isSome
          = true := by
      rw [List.find?_isSome]
      simpa [ConversionRegistry.is_valid, List.any_eq_true] using h
    obtain ⟨e, he⟩ := Option.isSome_iff_exists.mp hsome
    refine ⟨e.2, by simp [dictFind, he], ?_⟩
    simp [ConversionRegistry.get_route, dictFind, he]

/-- A registry holding a deliberately cross-domain route (mp4 is video,
pdf is document), exercising `register`'s lack of domain validation. -/
def crossRegistry : ConversionRegistry :=
  (ConversionRegistry.mk []).register
    ⟨"mp4", "pdf", .videoConverter, false⟩

/-- Witness for C9: the cross-domain pair mp4→pdf, once registered, is
valid — and registering it again still is — and `get_route` returns the
stored route without raising the cross-domain error. -/
theorem registered_pair_returns_stored_route_witness :
    crossRegistry.is_valid "mp4" "pdf" = true ∧
    (crossRegistry.register
        ⟨"mp4", "pdf", .videoConverter, false⟩).is_valid "mp4" "pdf"
      = true ∧
    ∃ rt, dictFind crossRegistry.routes (strLower "mp4", strLower "pdf")
        = some rt ∧
      crossRegistry.get_route "mp4" "pdf" = .ok rt :=
  ⟨by decide,
   (registered_pair_returns_stored_route crossRegistry
      ⟨"mp4", "pdf", .videoConverter, false⟩ "mp4" "pdf" (by decide)).1,
   (registered_pair_returns_stored_route crossRegistry
      ⟨"mp4", "pdf", .videoConverter, false⟩ "mp4" "pdf" (by decide)).2⟩

/-- C10: for a lowercase target `u`, membership in
`get_valid_targets s` agrees with `is_valid s u`; and when the routes
dict has no duplicate keys — as any dict has, and the default registry
demonstrably has — the returned sequence has no duplicates. -/
theorem valid_targets_consistent_with_is_valid (r : ConversionRegistry)
    (s u : String) (hu : strLower u = u)
    (hnd : (r.routes.map (·.1)).Nodup) :
    (u ∈ r.get_valid_targets s ↔ r.is_valid s u = true) ∧
    (r.get_valid_targets s).Nodup ∧
    (registry.routes.map (·.1)).Nodup := by
  refine ⟨?_, ?_, by decide⟩
  · rw [mem_get_valid_targets, is_valid_iff_mem, hu]
  · unfold ConversionRegistry.get_valid_targets
    have hperm := List.perm_insertionSort (fun a b => strLe a b = true)
      (((r.routes.map (·.1)).filter
        (fun k => k.1 == strLower s)).map (·.2))
    rw [hperm.nodup_iff]
    refine List.Nodup.map_on ?_ (hnd.filter _)
    rintro ⟨x1, x2⟩ hx ⟨y1, y2⟩ hy hxy
    have hx1 : x1 = strLower s := by
      simpa using (List.mem_filter.mp hx).2
    have hy1 : y1 = strLower s := by
      simpa using (List.mem_filter.mp hy).2
    simp only at hxy
    simp [hx1, hy1, hxy]

/-- Witness for C10 at the default registry with source heic and
target jpg. -/
theorem valid_targets_consistent_witness :
    strLower "jpg" = "jpg" ∧
    (registry.routes.map (·.1)).Nodup ∧
    (("jpg" ∈ registry.get_valid_targets "heic" ↔
        registry.is_valid "heic" "jpg" = true) ∧
     (registry.get_valid_targets "heic").Nodup ∧
     (registry.routes.map (·.1)).Nodup) :=
  ⟨by decide, by decide,
   valid_targets_consistent_with_is_valid registry "heic" "jpg"
     (by decide) (by decide)⟩

end HeicConv
